import Mathlib

set_option maxHeartbeats 1000000
set_option maxRecDepth 4000
set_option linter.unnecessarySeqFocus false
set_option linter.unreachableTactic false
set_option linter.unusedTactic false

/-!
Formal model of the Celo Ledger protocol layer
(src/blockchains/celo/hw/index.ts and src/blockchains/celo/ledger.ts).

Modelling conventions:

* Node `Buffer` values are lists of byte values (`List Nat`).
* JavaScript hexadecimal strings are lists of hexadecimal digit values
  (each below 16), so `toString(16)`, `padStart(n, "0")` and
  `Buffer.from(str, "hex")` become operations on digit lists.
* The derivation-path argument of every operation is modelled as the list of
  unsigned 32-bit integers produced by `splitPath`; `splitPath` itself lives
  in `./utils`, outside this repository snapshot, and none of the claims
  concern path-string parsing.
* The transport is modelled by its outcome: the post-transport continuation
  of each operation becomes a function from `Except HwError response` to the
  operation result, mirroring the promise `then`/`catch` chains.
* `BigNumber` magnitude arguments become `Nat`.
* The chunking `while` loops are written with an explicit fuel argument
  (one more than the payload length); the theorems prove the fuel suffices
  under the path-capacity bounds that also keep the JS arithmetic
  non-negative.
-/

/-- Models Node `Buffer.prototype.copy`: `src` is written into `target`
starting at `tstart`, truncating at the end of `target`; the target buffer
never grows. -/
def bufCopy (target : List Nat) (tstart : Nat) (src : List Nat) : List Nat :=
  target.take tstart ++ src.take (target.length - tstart) ++ target.drop (tstart + src.length)

/-- Models the four bytes written by `buffer.writeUInt32BE(v, off)`
(big-endian; `writeUInt32BE` range-checks its argument, and every value the
source writes is an unsigned 32-bit integer). -/
def be32 (v : Nat) : List Nat :=
  [v / 2 ^ 24 % 256, v / 2 ^ 16 % 256, v / 2 ^ 8 % 256, v % 256]

/-- Concatenated big-endian encodings of the path components, as written by
the `paths.forEach` loops. -/
def pathWordsBytes : List Nat → List Nat
  | [] => []
  | e :: rest => be32 e ++ pathWordsBytes rest

/-- The encoded path header: one length byte followed by the big-endian path
components. Every operation writes exactly this layout. -/
def pathHeader (paths : List Nat) : List Nat :=
  paths.length % 256 :: pathWordsBytes paths

/-- Models the `paths.forEach((element, index) => buffer.writeUInt32BE(element, 1 + 4 * index))`
loop shared by every frame builder. -/
def writePathElems (t : List Nat) : List Nat → Nat → List Nat
  | [], _ => t
  | e :: rest, i => writePathElems (bufCopy t (1 + 4 * i) (be32 e)) rest (i + 1)

/-- Models `buffer[0] = paths.length` followed by the `forEach` loop writing
the path components. -/
def writePathHeader (t : List Nat) (paths : List Nat) : List Nat :=
  writePathElems (bufCopy t 0 [paths.length % 256]) paths 0

/-- Hex digits of `v`, least significant first; the fuel argument makes the
recursion structural (fuel `v + 1` always suffices). -/
def hexDigitsRevAux : Nat → Nat → List Nat
  | 0, _ => []
  | fuel + 1, v => if v < 16 then [v] else v % 16 :: hexDigitsRevAux fuel (v / 16)

/-- Models `v.toString(16)` for an unsigned `BigNumber`: the big-endian hex
digit list, with no leading zeros and `[0]` for zero. -/
def toHexDigits (v : Nat) : List Nat :=
  (hexDigitsRevAux (v + 1) v).reverse

/-- Models `str.padStart(n, "0")` on a hex digit list. -/
def padStartZeros (n : Nat) (ds : List Nat) : List Nat :=
  List.replicate (n - ds.length) 0 ++ ds

/-- Models `Buffer.from(str, "hex")`: consecutive digit pairs become bytes;
a trailing lone digit is dropped, as Node truncates an odd-length hex
string. -/
def hexDecodePairs : List Nat → List Nat
  | d1 :: d2 :: rest => (16 * d1 + d2) :: hexDecodePairs rest
  | _ => []

/-- Models `Buffer.from(v.toString(16).padStart(2 * w, "0"), "hex")`, the
fixed-width magnitude-field encoding used for quantization values (w = 32)
and amounts (w = 8). -/
def magField (w : Nat) (v : Nat) : List Nat :=
  hexDecodePairs (padStartZeros (2 * w) (toHexDigits v))

/-- The `w`-byte big-endian encoding of `v` (the value a `magField` holds
whenever `v` fits the field width). -/
def beBytes : Nat → Nat → List Nat
  | 0, _ => []
  | w + 1, v => beBytes w (v / 256) ++ [v % 256]

/-- Exactly `n` hex digits of `v`, big-endian (proof helper relating
`padStartZeros` of `toHexDigits` to a width-indexed digit expansion). -/
def padDigits : Nat → Nat → List Nat
  | 0, _ => []
  | n + 1, v => padDigits n (v / 16) ++ [v % 16]

/-- Models `buffer.toString("hex")`: each byte becomes two hex digits. -/
def hexEncode : List Nat → List Nat
  | [] => []
  | b :: rest => b / 16 :: b % 16 :: hexEncode rest

/-- A token-address or similar field of width `w`: the written bytes followed
by the zero fill the allocation left in place (absent fields stay entirely
zero-filled). -/
def optField (w : Nat) : Option (List Nat) → List Nat
  | none => List.replicate w 0
  | some a => a ++ List.replicate (w - a.length) 0

/-- An optional magnitude field of width `w`: zero-filled when absent,
otherwise the `magField` encoding. -/
def optMagField (w : Nat) : Option Nat → List Nat
  | none => List.replicate w 0
  | some v => magField w v

/-- Models the conditional writes `if (x) x.copy(buffer, offset)` used for
optional token-address fields: absent fields leave the zero fill in place. -/
def bufCopyOpt (t : List Nat) (s : Nat) : Option (List Nat) → List Nat
  | some a => bufCopy t s a
  | none => t

/-- Models the conditional writes
`if (x) Buffer.from(x.toString(16).padStart(2 * w, "0"), "hex").copy(buffer, offset)`
used for optional magnitude fields. -/
def bufCopyOptMag (t : List Nat) (s w : Nat) : Option Nat → List Nat
  | some v => bufCopy t s (magField w v)
  | none => t

/-! ## Errors and status translation -/

/-- The errors an operation can surface. `status c` models a transport
rejection carrying `statusCode === c`; `noStatus` models a rejection without
a status code; `enableContractData` models the
`EthAppPleaseEnableContractData` error constructed by
`remapTransactionRelatedErrors`. -/
inductive HwError where
  | status (code : Nat)
  | noStatus
  | enableContractData
deriving DecidableEq

/-- The `statusCode` property read by the error handlers. -/
def HwError.statusCode : HwError → Option Nat
  | .status c => some c
  | _ => none

/-- Models `remapTransactionRelatedErrors`: a rejection whose `statusCode`
is `0x6a80` becomes the descriptive enable-contract-data error; anything
else is returned unchanged. -/
def remapTransactionRelatedErrors (e : HwError) : HwError :=
  if e.statusCode = some 0x6a80 then .enableContractData else e

/-! ## Boundary-aware chunkers -/

/-- The per-iteration `maxChunkSize` of the `signTransaction` loop: the first
chunk reserves the path header, later chunks use the full 150-byte frame. -/
def txMaxChunkSize (pathsLen offset : Nat) : Nat :=
  if offset = 0 then 150 - 1 - pathsLen * 4 else 150

/-- The chunk size chosen by one `signTransaction` loop iteration: clamp to
the remaining payload, then shrink by one byte if the chunk would end exactly
on the EIP-155 suffix offset `rlpOffset` (when that offset is set). -/
def txChunkSize (pathsLen rlpOffset len offset : Nat) : Nat :=
  let maxChunkSize := txMaxChunkSize pathsLen offset
  let chunkSize := if len < offset + maxChunkSize then len - offset else maxChunkSize
  if rlpOffset ≠ 0 ∧ offset + chunkSize = rlpOffset then chunkSize - 1 else chunkSize

/-- The `while (offset !== rawTx.length)` loop of `signTransaction`: frame 0
is a fresh zero-filled buffer holding the path header followed by payload
bytes, later frames hold payload bytes only. -/
def txChunkLoop (paths : List Nat) (rlpOffset : Nat) (rawTx : List Nat) :
    Nat → Nat → List (List Nat)
  | 0, _ => []
  | fuel + 1, offset =>
    if offset = rawTx.length then []
    else
      let chunkSize := txChunkSize paths.length rlpOffset rawTx.length offset
      let buffer :=
        if offset = 0 then
          bufCopy (writePathHeader (List.replicate (1 + paths.length * 4 + chunkSize) 0) paths)
            (1 + 4 * paths.length) ((rawTx.drop offset).take chunkSize)
        else
          bufCopy (List.replicate chunkSize 0) 0 ((rawTx.drop offset).take chunkSize)
      buffer :: txChunkLoop paths rlpOffset rawTx fuel (offset + chunkSize)

/-- The frame sequence `toSend` built by `signTransaction`. `rlpOffset` is
the EIP-155 suffix offset the source computes from the RLP structure of the
transaction (`0` when the decoded list has at most 6 elements; otherwise
`rawTx.length - (encode(rlpTx.slice(-3)).length - 1)`, which for a genuine
RLP suffix is positive and below `rawTx.length`). -/
def signTransactionFrames (paths : List Nat) (rlpOffset : Nat) (rawTx : List Nat) :
    List (List Nat) :=
  txChunkLoop paths rlpOffset rawTx (rawTx.length + 1) 0

/-- The per-iteration `maxChunkSize` of the `signPersonalMessage` loop: the
first chunk additionally reserves the 4-byte message-length field. -/
def msgMaxChunkSize (pathsLen offset : Nat) : Nat :=
  if offset = 0 then 150 - 1 - pathsLen * 4 - 4 else 150

/-- The chunk size chosen by one `signPersonalMessage` loop iteration. -/
def msgChunkSize (pathsLen len offset : Nat) : Nat :=
  let maxChunkSize := msgMaxChunkSize pathsLen offset
  if len < offset + maxChunkSize then len - offset else maxChunkSize

/-- The `while (offset !== message.length)` loop of `signPersonalMessage`:
frame 0 holds the path header, the 4-byte big-endian message length, then
payload bytes; later frames hold payload bytes only. -/
def msgChunkLoop (paths : List Nat) (message : List Nat) : Nat → Nat → List (List Nat)
  | 0, _ => []
  | fuel + 1, offset =>
    if offset = message.length then []
    else
      let chunkSize := msgChunkSize paths.length message.length offset
      let buffer :=
        if offset = 0 then
          bufCopy
            (bufCopy (writePathHeader (List.replicate (1 + paths.length * 4 + 4 + chunkSize) 0) paths)
              (1 + 4 * paths.length) (be32 message.length))
            (1 + 4 * paths.length + 4) ((message.drop offset).take chunkSize)
        else
          bufCopy (List.replicate chunkSize 0) 0 ((message.drop offset).take chunkSize)
      buffer :: msgChunkLoop paths message fuel (offset + chunkSize)

/-- The frame sequence `toSend` built by `signPersonalMessage`. -/
def signPersonalMessageFrames (paths : List Nat) (message : List Nat) : List (List Nat) :=
  msgChunkLoop paths message (message.length + 1) 0

/-- Models the sequential dispatcher
`foreach(toSend, (data, i) => transport.send(0xe0, ins, i === 0 ? 0x00 : 0x80, 0x00, data))`:
the ordered list of (class, instruction, param1, param2, payload) requests. -/
def dispatchAPDUs (ins : Nat) : List (List Nat) → Nat → List (Nat × Nat × Nat × Nat × List Nat)
  | [], _ => []
  | f :: rest, i => (0xe0, ins, if i = 0 then 0x00 else 0x80, 0x00, f) :: dispatchAPDUs ins rest (i + 1)

/-- Concatenation of a list of byte buffers. -/
def joinAll : List (List Nat) → List Nat
  | [] => []
  | f :: rest => f ++ joinAll rest

/-- The payload-bearing region concatenation of a chunk sequence: frame 0
minus its `headerLen`-byte header, and every later frame in full. -/
def chunkPayloadConcat (headerLen : Nat) : List (List Nat) → List Nat
  | [] => []
  | f :: rest => f.drop headerLen ++ joinAll rest

/-- The payload byte counts of a chunk sequence (frame 0 minus its header,
later frames in full). -/
def framePayloadSizes (headerLen : Nat) : List (List Nat) → List Nat
  | [] => []
  | f :: rest => (f.length - headerLen) :: rest.map List.length

/-- Running totals of a list, starting from `acc` (each entry is a chunk
boundary offset within the logical payload). -/
def runningTotals (acc : Nat) : List Nat → List Nat
  | [] => []
  | x :: xs => (acc + x) :: runningTotals (acc + x) xs

/-- The chunk boundaries of `signTransaction`: for each emitted frame, the
payload offset at which the frame ends. -/
def txChunkBoundaries (paths : List Nat) (rlpOffset : Nat) (rawTx : List Nat) : List Nat :=
  runningTotals 0
    (framePayloadSizes (1 + 4 * paths.length) (signTransactionFrames paths rlpOffset rawTx))

/-! ## Fixed-shape frame builders -/

/-- The five Stark quantization kinds of `StarkQuantizationType`. -/
inductive StarkQuantizationType where
  | eth
  | erc20
  | erc721
  | erc20mintable
  | erc721mintable
deriving DecidableEq

/-- The `starkQuantizationTypeMap` lookup table. -/
def starkQuantizationTypeMap : StarkQuantizationType → Nat
  | .eth => 1
  | .erc20 => 2
  | .erc721 => 3
  | .erc20mintable => 4
  | .erc721mintable => 5

/-- The command frame built by `starkSignOrder`. Token addresses are taken
as the already-decoded byte lists produced by `maybeHexBuffer` (absent for
ETH); magnitudes are `BigNumber` values encoded through `magField`. -/
def starkSignOrderFrame (paths : List Nat)
    (sourceTokenAddressHex : Option (List Nat)) (sourceQuantization : Nat)
    (destinationTokenAddressHex : Option (List Nat)) (destinationQuantization : Nat)
    (sourceVault destinationVault : Nat) (amountSell amountBuy : Nat)
    (nonce timestamp : Nat) : List Nat :=
  let o := 1 + 4 * paths.length
  let b0 := writePathHeader
    (List.replicate (1 + paths.length * 4 + 20 + 32 + 20 + 32 + 4 + 4 + 8 + 8 + 4 + 4) 0) paths
  let b1 := bufCopyOpt b0 o sourceTokenAddressHex
  let b2 := bufCopy b1 (o + 20) (magField 32 sourceQuantization)
  let b3 := bufCopyOpt b2 (o + 52) destinationTokenAddressHex
  let b4 := bufCopy b3 (o + 72) (magField 32 destinationQuantization)
  let b5 := bufCopy b4 (o + 104) (be32 sourceVault)
  let b6 := bufCopy b5 (o + 108) (be32 destinationVault)
  let b7 := bufCopy b6 (o + 112) (magField 8 amountSell)
  let b8 := bufCopy b7 (o + 120) (magField 8 amountBuy)
  let b9 := bufCopy b8 (o + 128) (be32 nonce)
  bufCopy b9 (o + 132) (be32 timestamp)

/-- The command frame built by `starkSignTransfer_v2`. The conditional
fact/address pair is appended only when both optional arguments are present,
matching `if (conditionalTransferAddressHex && conditionalTransferFact)`;
the allocation grows by 52 bytes whenever the conditional address is
present. -/
def starkSignTransferV2Frame (paths : List Nat)
    (transferTokenAddressHex : Option (List Nat))
    (transferQuantizationType : StarkQuantizationType)
    (transferQuantization : Option Nat) (transferMintableBlobOrTokenId : Option Nat)
    (targetPublicKeyHex : List Nat) (sourceVault destinationVault : Nat)
    (amountTransfer : Nat) (nonce timestamp : Nat)
    (conditionalTransferAddressHex : Option (List Nat))
    (conditionalTransferFact : Option Nat) : List Nat :=
  let o := 1 + 4 * paths.length
  let b0 := writePathHeader
    (List.replicate (1 + paths.length * 4 + 1 + 20 + 32 + 32 + 32 + 4 + 4 + 8 + 4 + 4 +
      (if conditionalTransferAddressHex.isSome then 32 + 20 else 0)) 0) paths
  let b1 := bufCopy b0 o [starkQuantizationTypeMap transferQuantizationType]
  let b2 := bufCopyOpt b1 (o + 1) transferTokenAddressHex
  let b3 := bufCopyOptMag b2 (o + 21) 32 transferQuantization
  let b4 := bufCopyOptMag b3 (o + 53) 32 transferMintableBlobOrTokenId
  let b5 := bufCopy b4 (o + 85) targetPublicKeyHex
  let b6 := bufCopy b5 (o + 117) (be32 sourceVault)
  let b7 := bufCopy b6 (o + 121) (be32 destinationVault)
  let b8 := bufCopy b7 (o + 125) (magField 8 amountTransfer)
  let b9 := bufCopy b8 (o + 133) (be32 nonce)
  let b10 := bufCopy b9 (o + 137) (be32 timestamp)
  match conditionalTransferAddressHex, conditionalTransferFact with
  | some a, some f => bufCopy (bufCopy b10 (o + 141) (magField 32 f)) (o + 173) a
  | _, _ => b10

/-- The sub-instruction byte (`param1`) sent by `starkSignTransfer_v2`:
`0x05` for a conditional transfer, `0x04` otherwise. -/
def starkSignTransferV2Param1 (conditionalTransferAddressHex : Option (List Nat)) : Nat :=
  if conditionalTransferAddressHex.isSome then 0x05 else 0x04

/-! ## Response parsers -/

/-- The result record of `getAddress`. The address is the ascii decoding of
the address bytes behind the constant `0x` text prefix (ascii decoding keeps
the low 7 bits of each byte); `publicKey` and `chainCode` are hex digit
lists. -/
structure GetAddressResult where
  publicKey : List Nat
  address : List Nat
  chainCode : Option (List Nat)
deriving DecidableEq

/-- The response parse of `getAddress`: a public-key length byte, the public
key, an address length byte, the address, and (when requested) a 32-byte
chain code. Out-of-range index reads yield `undefined` in JS, which makes
the downstream slices empty exactly as the default `0` does here. -/
def getAddressParse (boolChaincode : Bool) (response : List Nat) : GetAddressResult :=
  let publicKeyLength := response.getD 0 0
  let addressLength := response.getD (1 + publicKeyLength) 0
  let publicKey := hexEncode ((response.drop 1).take publicKeyLength)
  let address :=
    48 :: 120 :: ((response.drop (1 + publicKeyLength + 1)).take addressLength).map (· % 128)
  if boolChaincode then
    { publicKey := publicKey, address := address,
      chainCode := some (hexEncode
        ((response.drop (1 + publicKeyLength + 1 + addressLength)).take 32)) }
  else
    { publicKey := publicKey, address := address, chainCode := none }

/-- The v/r/s record returned by `signTransaction` (all three fields are hex
digit lists taken from fixed offsets). -/
structure TxSignature where
  v : List Nat
  r : List Nat
  s : List Nat
deriving DecidableEq

/-- The response parse of `signTransaction`:
`v = response.slice(0, 1)`, `r = response.slice(1, 33)`,
`s = response.slice(33, 65)`, each hex encoded. -/
def signTransactionParse (response : List Nat) : TxSignature :=
  { v := hexEncode (response.take 1),
    r := hexEncode ((response.drop 1).take 32),
    s := hexEncode ((response.drop 33).take 32) }

/-- The v/r/s record returned by `signPersonalMessage` and
`signEIP712HashedMessage` (`v` is the raw first response byte). -/
structure PersonalSignature where
  v : Nat
  r : List Nat
  s : List Nat
deriving DecidableEq

/-- The response parse of `signPersonalMessage`. -/
def signPersonalMessageParse (response : List Nat) : PersonalSignature :=
  { v := response.getD 0 0,
    r := hexEncode ((response.drop 1).take 32),
    s := hexEncode ((response.drop 33).take 32) }

/-- The response parse of `signEIP712HashedMessage` (identical layout). -/
def signEIP712HashedMessageParse (response : List Nat) : PersonalSignature :=
  { v := response.getD 0 0,
    r := hexEncode ((response.drop 1).take 32),
    s := hexEncode ((response.drop 33).take 32) }

/-- The r/s record returned by the Stark signing operations. -/
structure StarkSignature where
  r : List Nat
  s : List Nat
deriving DecidableEq

/-- The response parse shared by `starkSignOrder`, `starkSignOrder_v2`,
`starkSignTransfer`, `starkSignTransfer_v2` and `starkUnsafeSign`:
`r = response.slice(1, 33)`, `s = response.slice(33, 65)`. -/
def starkSignatureParse (response : List Nat) : StarkSignature :=
  { r := hexEncode ((response.drop 1).take 32),
    s := hexEncode ((response.drop 33).take 32) }

/-- The response parse of `starkGetPublicKey`:
`response.slice(0, response.length - 2)` drops the trailing status word. -/
def starkGetPublicKeyParse (response : List Nat) : List Nat :=
  response.take (response.length - 2)

/-- The response parse of `eth2GetPublicKey`: `response.slice(0, -2)` drops
the trailing status word, then the key is hex encoded. -/
def eth2GetPublicKeyParse (response : List Nat) : List Nat :=
  hexEncode (response.take (response.length - 2))

/-- The result record of `getAppConfiguration`. -/
structure AppConfiguration where
  arbitraryDataEnabled : Nat
  erc20ProvisioningNecessary : Nat
  starkEnabled : Nat
  starkv2Supported : Nat
  version : Nat × Nat × Nat
deriving DecidableEq

/-- The response parse of `getAppConfiguration`. -/
def getAppConfigurationParse (response : List Nat) : AppConfiguration :=
  { arbitraryDataEnabled := response.getD 0 0 &&& 0x01,
    erc20ProvisioningNecessary := response.getD 0 0 &&& 0x02,
    starkEnabled := response.getD 0 0 &&& 0x04,
    starkv2Supported := response.getD 0 0 &&& 0x08,
    version := (response.getD 1 0, response.getD 2 0, response.getD 3 0) }

/-! ## Operation outcomes (the promise chains after the transport call) -/

/-- The `getAddress` promise chain: parse on success, propagate any error. -/
def getAddressResultOf (boolChaincode : Bool) (t : Except HwError (List Nat)) :
    Except HwError GetAddressResult :=
  match t with
  | .ok r => .ok (getAddressParse boolChaincode r)
  | .error e => .error e

/-- The `provideERC20TokenInformation` promise chain: `true` on success,
`false` when the rejection carries `statusCode === 0x6d00` (older app
versions), otherwise rethrow. -/
def provideERC20TokenInformationResultOf (t : Except HwError (List Nat)) :
    Except HwError Bool :=
  match t with
  | .ok _ => .ok true
  | .error e => if e.statusCode = some 0x6d00 then .ok false else .error e

/-- The `signTransaction` promise chain: parse the final response on
success; on any rejection, throw `remapTransactionRelatedErrors(e)`. -/
def signTransactionResultOf (t : Except HwError (List Nat)) : Except HwError TxSignature :=
  match t with
  | .ok r => .ok (signTransactionParse r)
  | .error e => .error (remapTransactionRelatedErrors e)

/-- The `getAppConfiguration` promise chain. -/
def getAppConfigurationResultOf (t : Except HwError (List Nat)) :
    Except HwError AppConfiguration :=
  match t with
  | .ok r => .ok (getAppConfigurationParse r)
  | .error e => .error e

/-- The `signPersonalMessage` promise chain: no error handler, errors
propagate unchanged. -/
def signPersonalMessageResultOf (t : Except HwError (List Nat)) :
    Except HwError PersonalSignature :=
  match t with
  | .ok r => .ok (signPersonalMessageParse r)
  | .error e => .error e

/-- The `signEIP712HashedMessage` promise chain. -/
def signEIP712HashedMessageResultOf (t : Except HwError (List Nat)) :
    Except HwError PersonalSignature :=
  match t with
  | .ok r => .ok (signEIP712HashedMessageParse r)
  | .error e => .error e

/-- The `starkGetPublicKey` promise chain. -/
def starkGetPublicKeyResultOf (t : Except HwError (List Nat)) :
    Except HwError (List Nat) :=
  match t with
  | .ok r => .ok (starkGetPublicKeyParse r)
  | .error e => .error e

/-- The `starkSignOrder` promise chain. -/
def starkSignOrderResultOf (t : Except HwError (List Nat)) : Except HwError StarkSignature :=
  match t with
  | .ok r => .ok (starkSignatureParse r)
  | .error e => .error e

/-- The `starkSignOrder_v2` promise chain (the invalid-quantization-type
throw happens before the transport call and is unrepresentable here because
the tag argument is the closed enum). -/
def starkSignOrderV2ResultOf (t : Except HwError (List Nat)) : Except HwError StarkSignature :=
  match t with
  | .ok r => .ok (starkSignatureParse r)
  | .error e => .error e

/-- The `starkSignTransfer` promise chain. -/
def starkSignTransferResultOf (t : Except HwError (List Nat)) : Except HwError StarkSignature :=
  match t with
  | .ok r => .ok (starkSignatureParse r)
  | .error e => .error e

/-- The `starkSignTransfer_v2` promise chain. -/
def starkSignTransferV2ResultOf (t : Except HwError (List Nat)) :
    Except HwError StarkSignature :=
  match t with
  | .ok r => .ok (starkSignatureParse r)
  | .error e => .error e

/-- The `starkProvideQuantum` promise chain: `true` on success, `false` when
the rejection carries `statusCode === 0x6d00`, otherwise rethrow. -/
def starkProvideQuantumResultOf (t : Except HwError (List Nat)) : Except HwError Bool :=
  match t with
  | .ok _ => .ok true
  | .error e => if e.statusCode = some 0x6d00 then .ok false else .error e

/-- The `starkProvideQuantum_v2` promise chain: same 0x6d00 fallback. -/
def starkProvideQuantumV2ResultOf (t : Except HwError (List Nat)) : Except HwError Bool :=
  match t with
  | .ok _ => .ok true
  | .error e => if e.statusCode = some 0x6d00 then .ok false else .error e

/-- The `starkUnsafeSign` promise chain. -/
def starkUnsafeSignResultOf (t : Except HwError (List Nat)) : Except HwError StarkSignature :=
  match t with
  | .ok r => .ok (starkSignatureParse r)
  | .error e => .error e

/-- The `eth2GetPublicKey` promise chain. -/
def eth2GetPublicKeyResultOf (t : Except HwError (List Nat)) : Except HwError (List Nat) :=
  match t with
  | .ok r => .ok (eth2GetPublicKeyParse r)
  | .error e => .error e

/-- The `eth2SetWithdrawalIndex` promise chain: `true` on success, `false`
when the rejection carries `statusCode === 0x6d00`, otherwise rethrow. -/
def eth2SetWithdrawalIndexResultOf (t : Except HwError (List Nat)) : Except HwError Bool :=
  match t with
  | .ok _ => .ok true
  | .error e => if e.statusCode = some 0x6d00 then .ok false else .error e

/-- Models `LEDGER.getAccount` (src/blockchains/celo/ledger.ts): the address
from a successful `getAddress` call; the `catch` block swallows every error
and the function returns the empty string (the empty list here). -/
def LEDGER_getAccount (t : Except HwError (List Nat)) : List Nat :=
  match getAddressResultOf false t with
  | .ok r => r.address
  | .error _ => []

/-! ## Spec-side comparison definitions -/

/-- Follows the words of the specification for claim C5: a caller-supplied
magnitude is acceptable only when its hexadecimal representation fits the
field width (64 hex digits for 32-byte quantization values, 16 for 8-byte
amounts); `starkSignOrder` should reject its inputs otherwise. -/
def starkSignOrderWidthCheck (sourceQuantization destinationQuantization
    amountSell amountBuy : Nat) : Bool :=
  decide ((toHexDigits sourceQuantization).length ≤ 64) &&
  decide ((toHexDigits destinationQuantization).length ≤ 64) &&
  decide ((toHexDigits amountSell).length ≤ 16) &&
  decide ((toHexDigits amountBuy).length ≤ 16)

/-! ## Buffer algebra -/

theorem be32_length (v : Nat) : (be32 v).length = 4 := rfl

theorem pathWordsBytes_length (l : List Nat) : (pathWordsBytes l).length = 4 * l.length := by
  induction l with
  | nil => rfl
  | cons e rest ih => simp [pathWordsBytes, ih, be32_length]; ring

theorem pathHeader_length (paths : List Nat) :
    (pathHeader paths).length = 1 + 4 * paths.length := by
  simp [pathHeader, pathWordsBytes_length]
  omega

theorem bufCopy_length (t src : List Nat) (s : Nat) : (bufCopy t s src).length = t.length := by
  simp only [bufCopy, List.length_append, List.length_take, List.length_drop]
  omega

/-- Writing `src` at the boundary between an already-written prefix and the
zero fill appends it in place (the in-bounds `Buffer.copy` case). -/
theorem bufCopy_at_boundary (p src : List Nat) (m s : Nat) (hs : s = p.length)
    (hm : src.length ≤ m) :
    bufCopy (p ++ List.replicate m 0) s src = p ++ src ++ List.replicate (m - src.length) 0 := by
  subst hs
  unfold bufCopy
  rw [List.take_left]
  have h1 : (p ++ List.replicate m 0).length - p.length = m := by
    simp [List.length_append, List.length_replicate]
  rw [h1, List.take_of_length_le hm]
  have h2 : (p ++ List.replicate m 0).drop (p.length + src.length) =
      List.replicate (m - src.length) 0 := by
    rw [← List.drop_drop, List.drop_left, List.drop_replicate]
  rw [h2]

/-- Writing a short field at the boundary, viewed through its full field
width: the remaining zero fill splits into in-field padding and the rest. -/
theorem bufCopy_field_at_boundary (p src : List Nat) (m s w : Nat) (hs : s = p.length)
    (hw : src.length ≤ w) (hm : w ≤ m) :
    bufCopy (p ++ List.replicate m 0) s src =
      (p ++ (src ++ List.replicate (w - src.length) 0)) ++ List.replicate (m - w) 0 := by
  rw [bufCopy_at_boundary p src m s hs (le_trans hw hm)]
  have : List.replicate (m - src.length) (0 : Nat) =
      List.replicate (w - src.length) 0 ++ List.replicate (m - w) 0 := by
    rw [← List.replicate_add]
    congr 1
    omega
  rw [this]
  simp [List.append_assoc]

theorem writePathElems_norm (rest : List Nat) : ∀ (p : List Nat) (i m : Nat),
    p.length = 1 + 4 * i → 4 * rest.length ≤ m →
    writePathElems (p ++ List.replicate m 0) rest i =
      p ++ pathWordsBytes rest ++ List.replicate (m - 4 * rest.length) 0 := by
  induction rest with
  | nil =>
    intro p i m hp hm
    simp [writePathElems, pathWordsBytes]
  | cons e rest ih =>
    intro p i m hp hm
    simp only [writePathElems, pathWordsBytes]
    rw [bufCopy_at_boundary p (be32 e) m (1 + 4 * i) hp.symm
      (by rw [be32_length]; simp at hm; omega)]
    simp only [be32_length]
    rw [← List.append_assoc]
    rw [ih (p ++ be32 e) (i + 1) (m - 4)
      (by simp [hp, be32_length]; omega) (by simp at hm; omega)]
    have hcount : m - 4 - 4 * rest.length = m - 4 * (e :: rest).length := by
      simp; omega
    rw [hcount]

theorem writePathHeader_norm (paths : List Nat) (n : Nat) (h : 1 + 4 * paths.length ≤ n) :
    writePathHeader (List.replicate n 0) paths =
      pathHeader paths ++ List.replicate (n - (1 + 4 * paths.length)) 0 := by
  unfold writePathHeader
  have h0 : bufCopy (List.replicate n 0) 0 [paths.length % 256] =
      [paths.length % 256] ++ List.replicate (n - 1) 0 := by
    have := bufCopy_at_boundary [] [paths.length % 256] n 0 rfl (by simp; omega)
    simpa using this
  rw [h0]
  rw [writePathElems_norm paths [paths.length % 256] 0 (n - 1) (by simp) (by omega)]
  have hcount : n - 1 - 4 * paths.length = n - (1 + 4 * paths.length) := by omega
  rw [hcount]
  rfl

theorem writePathElems_length (rest : List Nat) : ∀ (t : List Nat) (i : Nat),
    (writePathElems t rest i).length = t.length := by
  induction rest with
  | nil => intro t i; rfl
  | cons e rest ih => intro t i; rw [writePathElems, ih, bufCopy_length]

theorem writePathHeader_length (t paths : List Nat) :
    (writePathHeader t paths).length = t.length := by
  unfold writePathHeader
  rw [writePathElems_length, bufCopy_length]

/-! ## Hex digit and magnitude-field lemmas -/

theorem hexDigitsRevAux_fuel (f1 : Nat) : ∀ (f2 v : Nat), v < f1 → v < f2 →
    hexDigitsRevAux f1 v = hexDigitsRevAux f2 v := by
  induction f1 with
  | zero => intro f2 v h1 h2; omega
  | succ f1 ih =>
    intro f2 v h1 h2
    cases f2 with
    | zero => omega
    | succ f2 =>
      simp only [hexDigitsRevAux]
      by_cases hv : v < 16
      · simp [hv]
      · simp only [hv, if_false]
        have hd : v / 16 < v := Nat.div_lt_self (by omega) (by omega)
        rw [ih f2 (v / 16) (by omega) (by omega)]

theorem toHexDigits_small (v : Nat) (h : v < 16) : toHexDigits v = [v] := by
  simp [toHexDigits, hexDigitsRevAux, h]

theorem toHexDigits_step (v : Nat) (h : 16 ≤ v) :
    toHexDigits v = toHexDigits (v / 16) ++ [v % 16] := by
  unfold toHexDigits
  have hd : v / 16 < v := Nat.div_lt_self (by omega) (by omega)
  have h1 : hexDigitsRevAux (v + 1) v = v % 16 :: hexDigitsRevAux v (v / 16) := by
    simp [hexDigitsRevAux, Nat.not_lt.mpr h]
  rw [h1, hexDigitsRevAux_fuel v (v / 16 + 1) (v / 16) (by omega) (by omega)]
  simp

theorem toHexDigits_length_pos (v : Nat) : 1 ≤ (toHexDigits v).length := by
  by_cases h : v < 16
  · rw [toHexDigits_small v h]; simp
  · rw [toHexDigits_step v (by omega)]; simp

theorem toHexDigits_length_le (n : Nat) : ∀ v : Nat, v < 16 ^ n → 1 ≤ n →
    (toHexDigits v).length ≤ n := by
  induction n with
  | zero => intro v h h1; omega
  | succ n ih =>
    intro v h _
    by_cases hv : v < 16
    · rw [toHexDigits_small v hv]; simp
    · rw [toHexDigits_step v (by omega)]
      have hlt : v / 16 < 16 ^ n := by
        rw [Nat.div_lt_iff_lt_mul (by omega)]
        calc v < 16 ^ (n + 1) := h
        _ = 16 ^ n * 16 := by ring
      have hn : 1 ≤ n := by
        by_contra hc
        have : n = 0 := by omega
        subst this
        simp at hlt
        omega
      have := ih (v / 16) hlt hn
      simp
      omega

theorem padDigits_zero_val (n : Nat) : padDigits n 0 = List.replicate n 0 := by
  induction n with
  | zero => rfl
  | succ n ih =>
    rw [padDigits]
    simp [ih, List.replicate_succ']

theorem padDigits_length (n : Nat) : ∀ v, (padDigits n v).length = n := by
  induction n with
  | zero => intro v; rfl
  | succ n ih => intro v; rw [padDigits]; simp [ih]

theorem padStartZeros_toHexDigits (n : Nat) : ∀ v : Nat, (toHexDigits v).length ≤ n →
    padStartZeros n (toHexDigits v) = padDigits n v := by
  induction n with
  | zero =>
    intro v h
    have := toHexDigits_length_pos v
    omega
  | succ n ih =>
    intro v h
    by_cases hv : v < 16
    · rw [toHexDigits_small v hv]
      unfold padStartZeros
      rw [padDigits]
      have hv16 : v / 16 = 0 := Nat.div_eq_of_lt hv
      have hvm : v % 16 = v := Nat.mod_eq_of_lt hv
      rw [hv16, hvm, padDigits_zero_val]
      simp [List.replicate_succ']
    · rw [toHexDigits_step v (by omega)]
      unfold padStartZeros
      rw [padDigits]
      have hlen : (toHexDigits (v / 16)).length ≤ n := by
        rw [toHexDigits_step v (by omega)] at h
        simp at h
        omega
      have := ih (v / 16) hlen
      unfold padStartZeros at this
      have hc : n + 1 - (toHexDigits (v / 16) ++ [v % 16]).length =
          n - (toHexDigits (v / 16)).length := by
        simp only [List.length_append, List.length_cons, List.length_nil]
        omega
      rw [hc, ← List.append_assoc, this]

theorem hexDecodePairs_append_pair (a b : Nat) : ∀ (xs : List Nat), xs.length % 2 = 0 →
    hexDecodePairs (xs ++ [a, b]) = hexDecodePairs xs ++ [16 * a + b]
  | [], _ => by simp [hexDecodePairs]
  | [x], h => by simp at h
  | x :: y :: rest, h => by
    have ih := hexDecodePairs_append_pair a b rest (by simp at h; omega)
    simp only [List.cons_append, hexDecodePairs, List.append_eq, ih]

theorem hexDecodePairs_padDigits (w : Nat) : ∀ v, hexDecodePairs (padDigits (2 * w) v) = beBytes w v := by
  induction w with
  | zero => intro v; rfl
  | succ w ih =>
    intro v
    have h2 : 2 * (w + 1) = 2 * w + 1 + 1 := by ring
    rw [h2, padDigits, padDigits]
    have hdd : v / 16 / 16 = v / 256 := by
      rw [Nat.div_div_eq_div_mul]
    rw [hdd, List.append_assoc]
    have hpair := hexDecodePairs_append_pair (v / 16 % 16) (v % 16) (padDigits (2 * w) (v / 256))
      (by rw [padDigits_length]; omega)
    have hsingle : [v / 16 % 16] ++ [v % 16] = [v / 16 % 16, v % 16] := rfl
    rw [hsingle, hpair, ih]
    rw [beBytes]
    have hbyte : 16 * (v / 16 % 16) + v % 16 = v % 256 := by omega
    rw [hbyte]

/-- An in-width magnitude field is exactly the left-zero-padded big-endian
encoding of its value. -/
theorem magField_in_width (w v : Nat) (h : v < 2 ^ (8 * w)) (hw : 1 ≤ w) :
    magField w v = beBytes w v := by
  unfold magField
  have h16 : (16 : Nat) ^ (2 * w) = 2 ^ (8 * w) := by
    rw [show (16 : Nat) = 2 ^ 4 from rfl, ← Nat.pow_mul]
    congr 1
    ring
  have hlen : (toHexDigits v).length ≤ 2 * w :=
    toHexDigits_length_le (2 * w) v (by omega) (by omega)
  rw [padStartZeros_toHexDigits (2 * w) v hlen, hexDecodePairs_padDigits]

theorem beBytes_length (w : Nat) : ∀ v, (beBytes w v).length = w := by
  induction w with
  | zero => intro v; rfl
  | succ w ih => intro v; rw [beBytes]; simp [ih]

theorem magField_in_width_length (w v : Nat) (h : v < 2 ^ (8 * w)) (hw : 1 ≤ w) :
    (magField w v).length = w := by
  rw [magField_in_width w v h hw, beBytes_length]

/-! ## Field-write step lemmas -/

theorem optField_length (w : Nat) (x : Option (List Nat))
    (h : ∀ a, x = some a → a.length ≤ w) : (optField w x).length = w := by
  cases x with
  | none => simp [optField]
  | some a =>
    have := h a rfl
    simp [optField]
    omega

theorem optMagField_length (w : Nat) (x : Option Nat)
    (h : ∀ v, x = some v → (magField w v).length = w) : (optMagField w x).length = w := by
  cases x with
  | none => simp [optMagField]
  | some v => simpa [optMagField] using h v rfl

theorem bufCopyOpt_length (t : List Nat) (s : Nat) (x : Option (List Nat)) :
    (bufCopyOpt t s x).length = t.length := by
  cases x with
  | none => rfl
  | some a => exact bufCopy_length t a s

theorem bufCopyOptMag_length (t : List Nat) (s w : Nat) (x : Option Nat) :
    (bufCopyOptMag t s w x).length = t.length := by
  cases x with
  | none => rfl
  | some v => exact bufCopy_length t (magField w v) s

theorem bufCopy_exact_step (p src : List Nat) (m m2 s : Nat) (hs : s = p.length)
    (hm : src.length + m2 = m) :
    bufCopy (p ++ List.replicate m 0) s src = (p ++ src) ++ List.replicate m2 0 := by
  rw [bufCopy_at_boundary p src m s hs (by omega)]
  rw [show m - src.length = m2 by omega]

theorem bufCopy_pad_step (p src : List Nat) (m m2 s w : Nat) (hs : s = p.length)
    (hw : src.length ≤ w) (hm : w + m2 = m) :
    bufCopy (p ++ List.replicate m 0) s src =
      (p ++ (src ++ List.replicate (w - src.length) 0)) ++ List.replicate m2 0 := by
  rw [bufCopy_field_at_boundary p src m s w hs hw (by omega)]
  rw [show m - w = m2 by omega]

theorem bufCopyOpt_step (p : List Nat) (x : Option (List Nat)) (m m2 s w : Nat)
    (hs : s = p.length) (hw : ∀ a, x = some a → a.length ≤ w) (hm : w + m2 = m) :
    bufCopyOpt (p ++ List.replicate m 0) s x = (p ++ optField w x) ++ List.replicate m2 0 := by
  cases x with
  | none =>
    simp only [bufCopyOpt, optField]
    rw [← hm, List.replicate_add, ← List.append_assoc]
  | some a =>
    simp only [bufCopyOpt, optField]
    exact bufCopy_pad_step p a m m2 s w hs (hw a rfl) hm

theorem bufCopyOptMag_step (p : List Nat) (x : Option Nat) (m m2 s w : Nat)
    (hs : s = p.length) (hw : ∀ v, x = some v → (magField w v).length = w) (hm : w + m2 = m) :
    bufCopyOptMag (p ++ List.replicate m 0) s w x =
      (p ++ optMagField w x) ++ List.replicate m2 0 := by
  cases x with
  | none =>
    simp only [bufCopyOptMag, optMagField]
    rw [← hm, List.replicate_add, ← List.append_assoc]
  | some v =>
    simp only [bufCopyOptMag, optMagField]
    exact bufCopy_exact_step p (magField w v) m m2 s hs (by rw [hw v rfl] <;> omega)

/-! ## Frame normal forms -/

/-- In-bounds normal form of the `starkSignOrder` frame: with every
magnitude within its field width and token addresses at most 20 bytes, the
frame is the path header followed by each field at its documented offset. -/
theorem starkSignOrderFrame_norm (paths : List Nat)
    (sourceTokenAddressHex : Option (List Nat)) (sourceQuantization : Nat)
    (destinationTokenAddressHex : Option (List Nat)) (destinationQuantization : Nat)
    (sourceVault destinationVault amountSell amountBuy nonce timestamp : Nat)
    (hsTok : ∀ a, sourceTokenAddressHex = some a → a.length ≤ 20)
    (hdTok : ∀ a, destinationTokenAddressHex = some a → a.length ≤ 20)
    (hsq : sourceQuantization < 2 ^ 256) (hdq : destinationQuantization < 2 ^ 256)
    (hsell : amountSell < 2 ^ 64) (hbuy : amountBuy < 2 ^ 64) :
    starkSignOrderFrame paths sourceTokenAddressHex sourceQuantization
      destinationTokenAddressHex destinationQuantization sourceVault destinationVault
      amountSell amountBuy nonce timestamp =
    pathHeader paths ++ optField 20 sourceTokenAddressHex ++ magField 32 sourceQuantization ++
      optField 20 destinationTokenAddressHex ++ magField 32 destinationQuantization ++
      be32 sourceVault ++ be32 destinationVault ++ magField 8 amountSell ++
      magField 8 amountBuy ++ be32 nonce ++ be32 timestamp := by
  have hql : (magField 32 sourceQuantization).length = 32 :=
    magField_in_width_length 32 _ (by simpa using hsq) (by norm_num)
  have hq2 : (magField 32 destinationQuantization).length = 32 :=
    magField_in_width_length 32 _ (by simpa using hdq) (by norm_num)
  have ha1 : (magField 8 amountSell).length = 8 :=
    magField_in_width_length 8 _ (by simpa using hsell) (by norm_num)
  have ha2 : (magField 8 amountBuy).length = 8 :=
    magField_in_width_length 8 _ (by simpa using hbuy) (by norm_num)
  simp only [starkSignOrderFrame]
  rw [writePathHeader_norm paths
    (1 + paths.length * 4 + 20 + 32 + 20 + 32 + 4 + 4 + 8 + 8 + 4 + 4) (by omega)]
  rw [show (1 + paths.length * 4 + 20 + 32 + 20 + 32 + 4 + 4 + 8 + 8 + 4 + 4) -
    (1 + 4 * paths.length) = 136 by omega]
  set P0 := pathHeader paths with hP0
  have LP0 : P0.length = 1 + 4 * paths.length := by rw [hP0, pathHeader_length]
  rw [bufCopyOpt_step P0 sourceTokenAddressHex 136 116 (1 + 4 * paths.length) 20
    LP0.symm hsTok (by omega)]
  set P1 := P0 ++ optField 20 sourceTokenAddressHex with hP1
  have LP1 : P1.length = 1 + 4 * paths.length + 20 := by
    rw [hP1, List.length_append, LP0, optField_length 20 _ hsTok]
  rw [bufCopy_exact_step P1 (magField 32 sourceQuantization) 116 84
    (1 + 4 * paths.length + 20) LP1.symm (by rw [hql] <;> omega)]
  set P2 := P1 ++ magField 32 sourceQuantization with hP2
  have LP2 : P2.length = 1 + 4 * paths.length + 52 := by
    rw [hP2, List.length_append, LP1, hql] <;> omega
  rw [bufCopyOpt_step P2 destinationTokenAddressHex 84 64 (1 + 4 * paths.length + 52) 20
    LP2.symm hdTok (by omega)]
  set P3 := P2 ++ optField 20 destinationTokenAddressHex with hP3
  have LP3 : P3.length = 1 + 4 * paths.length + 72 := by
    rw [hP3, List.length_append, LP2, optField_length 20 _ hdTok] <;> omega
  rw [bufCopy_exact_step P3 (magField 32 destinationQuantization) 64 32
    (1 + 4 * paths.length + 72) LP3.symm (by rw [hq2] <;> omega)]
  set P4 := P3 ++ magField 32 destinationQuantization with hP4
  have LP4 : P4.length = 1 + 4 * paths.length + 104 := by
    rw [hP4, List.length_append, LP3, hq2] <;> omega
  rw [bufCopy_exact_step P4 (be32 sourceVault) 32 28 (1 + 4 * paths.length + 104)
    LP4.symm (by rw [be32_length] <;> omega)]
  set P5 := P4 ++ be32 sourceVault with hP5
  have LP5 : P5.length = 1 + 4 * paths.length + 108 := by
    rw [hP5, List.length_append, LP4, be32_length] <;> omega
  rw [bufCopy_exact_step P5 (be32 destinationVault) 28 24 (1 + 4 * paths.length + 108)
    LP5.symm (by rw [be32_length] <;> omega)]
  set P6 := P5 ++ be32 destinationVault with hP6
  have LP6 : P6.length = 1 + 4 * paths.length + 112 := by
    rw [hP6, List.length_append, LP5, be32_length] <;> omega
  rw [bufCopy_exact_step P6 (magField 8 amountSell) 24 16 (1 + 4 * paths.length + 112)
    LP6.symm (by rw [ha1] <;> omega)]
  set P7 := P6 ++ magField 8 amountSell with hP7
  have LP7 : P7.length = 1 + 4 * paths.length + 120 := by
    rw [hP7, List.length_append, LP6, ha1] <;> omega
  rw [bufCopy_exact_step P7 (magField 8 amountBuy) 16 8 (1 + 4 * paths.length + 120)
    LP7.symm (by rw [ha2] <;> omega)]
  set P8 := P7 ++ magField 8 amountBuy with hP8
  have LP8 : P8.length = 1 + 4 * paths.length + 128 := by
    rw [hP8, List.length_append, LP7, ha2] <;> omega
  rw [bufCopy_exact_step P8 (be32 nonce) 8 4 (1 + 4 * paths.length + 128)
    LP8.symm (by rw [be32_length] <;> omega)]
  set P9 := P8 ++ be32 nonce with hP9
  have LP9 : P9.length = 1 + 4 * paths.length + 132 := by
    rw [hP9, List.length_append, LP8, be32_length] <;> omega
  rw [bufCopy_exact_step P9 (be32 timestamp) 4 0 (1 + 4 * paths.length + 132)
    LP9.symm (by rw [be32_length] <;> omega)]
  rw [hP9, hP8, hP7, hP6, hP5, hP4, hP3, hP2, hP1, hP0]
  simp [List.append_assoc]

/-- The `starkSignTransfer_v2` frame length depends only on whether the
conditional address is present: the base layout plus 52 extra bytes. -/
theorem starkSignTransferV2Frame_length (paths : List Nat) (tok : Option (List Nat))
    (q : StarkQuantizationType) (quant blob : Option Nat) (target : List Nat)
    (sv dv amt nc ts : Nat) (condAddr : Option (List Nat)) (condFact : Option Nat) :
    (starkSignTransferV2Frame paths tok q quant blob target sv dv amt nc ts
      condAddr condFact).length =
      1 + paths.length * 4 + 141 + (if condAddr.isSome then 52 else 0) := by
  rcases condAddr with _ | a <;> rcases condFact with _ | f <;>
    simp [starkSignTransferV2Frame, bufCopy_length, bufCopyOpt_length, bufCopyOptMag_length,
      writePathHeader_length] <;> omega

/-- In-bounds normal form of the conditional `starkSignTransfer_v2` frame:
the base fields at their documented offsets, then the 32-byte fact and the
20-byte conditional address appended after the timestamp. -/
theorem starkSignTransferV2Frame_cond_norm (paths : List Nat) (tok : Option (List Nat))
    (q : StarkQuantizationType) (quant blob : Option Nat) (target : List Nat)
    (sv dv amt nc ts : Nat) (a : List Nat) (f : Nat)
    (htok : ∀ x, tok = some x → x.length ≤ 20)
    (hquant : ∀ v, quant = some v → v < 2 ^ 256)
    (hblob : ∀ v, blob = some v → v < 2 ^ 256)
    (htarget : target.length ≤ 32) (hamt : amt < 2 ^ 64)
    (hfact : f < 2 ^ 256) (haddr : a.length = 20) :
    starkSignTransferV2Frame paths tok q quant blob target sv dv amt nc ts
      (some a) (some f) =
    (pathHeader paths ++ [starkQuantizationTypeMap q] ++ optField 20 tok ++
      optMagField 32 quant ++ optMagField 32 blob ++ optField 32 (some target) ++
      be32 sv ++ be32 dv ++ magField 8 amt ++ be32 nc ++ be32 ts) ++
      (magField 32 f ++ a) := by
  have hquantLen : ∀ v, quant = some v → (magField 32 v).length = 32 := fun v hv =>
    magField_in_width_length 32 v (by simpa using hquant v hv) (by norm_num)
  have hblobLen : ∀ v, blob = some v → (magField 32 v).length = 32 := fun v hv =>
    magField_in_width_length 32 v (by simpa using hblob v hv) (by norm_num)
  have hamtLen : (magField 8 amt).length = 8 :=
    magField_in_width_length 8 _ (by simpa using hamt) (by norm_num)
  have hfactLen : (magField 32 f).length = 32 :=
    magField_in_width_length 32 _ (by simpa using hfact) (by norm_num)
  simp only [starkSignTransferV2Frame, Option.isSome_some, if_true]
  rw [writePathHeader_norm paths
    (1 + paths.length * 4 + 1 + 20 + 32 + 32 + 32 + 4 + 4 + 8 + 4 + 4 + (32 + 20)) (by omega)]
  rw [show (1 + paths.length * 4 + 1 + 20 + 32 + 32 + 32 + 4 + 4 + 8 + 4 + 4 + (32 + 20)) -
    (1 + 4 * paths.length) = 193 by omega]
  set P0 := pathHeader paths with hP0
  have LP0 : P0.length = 1 + 4 * paths.length := by rw [hP0, pathHeader_length]
  rw [bufCopy_exact_step P0 [starkQuantizationTypeMap q] 193 192 (1 + 4 * paths.length)
    LP0.symm (by simp)]
  set P1 := P0 ++ [starkQuantizationTypeMap q] with hP1
  have LP1 : P1.length = 1 + 4 * paths.length + 1 := by
    rw [hP1, List.length_append, LP0, List.length_singleton] <;> omega
  rw [bufCopyOpt_step P1 tok 192 172 (1 + 4 * paths.length + 1) 20 LP1.symm htok (by omega)]
  set P2 := P1 ++ optField 20 tok with hP2
  have LP2 : P2.length = 1 + 4 * paths.length + 21 := by
    rw [hP2, List.length_append, LP1, optField_length 20 _ htok] <;> omega
  rw [bufCopyOptMag_step P2 quant 172 140 (1 + 4 * paths.length + 21) 32
    LP2.symm hquantLen (by omega)]
  set P3 := P2 ++ optMagField 32 quant with hP3
  have LP3 : P3.length = 1 + 4 * paths.length + 53 := by
    rw [hP3, List.length_append, LP2, optMagField_length 32 _ hquantLen] <;> omega
  rw [bufCopyOptMag_step P3 blob 140 108 (1 + 4 * paths.length + 53) 32
    LP3.symm hblobLen (by omega)]
  set P4 := P3 ++ optMagField 32 blob with hP4
  have LP4 : P4.length = 1 + 4 * paths.length + 85 := by
    rw [hP4, List.length_append, LP3, optMagField_length 32 _ hblobLen] <;> omega
  rw [bufCopy_pad_step P4 target 108 76 (1 + 4 * paths.length + 85) 32
    LP4.symm htarget (by omega)]
  set P5 := P4 ++ (target ++ List.replicate (32 - target.length) 0) with hP5
  have LP5 : P5.length = 1 + 4 * paths.length + 117 := by
    rw [hP5, List.length_append, LP4, List.length_append, List.length_replicate] <;> omega
  rw [bufCopy_exact_step P5 (be32 sv) 76 72 (1 + 4 * paths.length + 117)
    LP5.symm (by rw [be32_length] <;> omega)]
  set P6 := P5 ++ be32 sv with hP6
  have LP6 : P6.length = 1 + 4 * paths.length + 121 := by
    rw [hP6, List.length_append, LP5, be32_length] <;> omega
  rw [bufCopy_exact_step P6 (be32 dv) 72 68 (1 + 4 * paths.length + 121)
    LP6.symm (by rw [be32_length] <;> omega)]
  set P7 := P6 ++ be32 dv with hP7
  have LP7 : P7.length = 1 + 4 * paths.length + 125 := by
    rw [hP7, List.length_append, LP6, be32_length] <;> omega
  rw [bufCopy_exact_step P7 (magField 8 amt) 68 60 (1 + 4 * paths.length + 125)
    LP7.symm (by rw [hamtLen] <;> omega)]
  set P8 := P7 ++ magField 8 amt with hP8
  have LP8 : P8.length = 1 + 4 * paths.length + 133 := by
    rw [hP8, List.length_append, LP7, hamtLen] <;> omega
  rw [bufCopy_exact_step P8 (be32 nc) 60 56 (1 + 4 * paths.length + 133)
    LP8.symm (by rw [be32_length] <;> omega)]
  set P9 := P8 ++ be32 nc with hP9
  have LP9 : P9.length = 1 + 4 * paths.length + 137 := by
    rw [hP9, List.length_append, LP8, be32_length] <;> omega
  rw [bufCopy_exact_step P9 (be32 ts) 56 52 (1 + 4 * paths.length + 137)
    LP9.symm (by rw [be32_length] <;> omega)]
  set P10 := P9 ++ be32 ts with hP10
  have LP10 : P10.length = 1 + 4 * paths.length + 141 := by
    rw [hP10, List.length_append, LP9, be32_length] <;> omega
  rw [bufCopy_exact_step P10 (magField 32 f) 52 20 (1 + 4 * paths.length + 141)
    LP10.symm (by rw [hfactLen] <;> omega)]
  set P11 := P10 ++ magField 32 f with hP11
  have LP11 : P11.length = 1 + 4 * paths.length + 173 := by
    rw [hP11, List.length_append, LP10, hfactLen] <;> omega
  rw [bufCopy_exact_step P11 a 20 0 (1 + 4 * paths.length + 173)
    LP11.symm (by rw [haddr] <;> omega)]
  rw [hP11, hP10, hP9, hP8, hP7, hP6, hP5, hP4, hP3, hP2, hP1, hP0]
  simp [List.append_assoc, optField]

/-! ## Chunker lemmas -/

theorem bufCopy_fill (c : Nat) (src : List Nat) (h : src.length = c) :
    bufCopy (List.replicate c 0) 0 src = src := by
  have := bufCopy_exact_step [] src c 0 0 rfl (by omega)
  simpa using this

theorem txChunkSize_progress (pathsLen rlpOffset len offset : Nat)
    (hk : pathsLen ≤ 36) (hr : rlpOffset = 0 ∨ rlpOffset < len) (h : offset < len) :
    1 ≤ txChunkSize pathsLen rlpOffset len offset ∧
      offset + txChunkSize pathsLen rlpOffset len offset ≤ len := by
  simp only [txChunkSize, txMaxChunkSize]
  rcases hr with hr | hr <;> split_ifs <;> omega

theorem txChunkEnd_ne (pathsLen rlpOffset len offset : Nat) (hk : pathsLen ≤ 36)
    (h0 : 0 < rlpOffset) (hL : rlpOffset < len) (h : offset < len) :
    offset + txChunkSize pathsLen rlpOffset len offset ≠ rlpOffset := by
  simp only [txChunkSize, txMaxChunkSize]
  split_ifs <;> omega

theorem msgChunkSize_progress (pathsLen len offset : Nat)
    (hk : pathsLen ≤ 36) (h : offset < len) :
    1 ≤ msgChunkSize pathsLen len offset ∧
      offset + msgChunkSize pathsLen len offset ≤ len := by
  simp only [msgChunkSize, msgMaxChunkSize]
  split_ifs <;> omega

theorem txChunkLoop_join (paths : List Nat) (ro : Nat) (rawTx : List Nat)
    (hk : paths.length ≤ 36) (hr : ro = 0 ∨ ro < rawTx.length) :
    ∀ (fuel offset : Nat), 0 < offset → offset ≤ rawTx.length →
      rawTx.length - offset < fuel →
      joinAll (txChunkLoop paths ro rawTx fuel offset) = rawTx.drop offset := by
  intro fuel
  induction fuel with
  | zero => intro offset h1 h2 h3; omega
  | succ fuel ih =>
    intro offset h1 h2 h3
    by_cases he : offset = rawTx.length
    · subst he
      simp [txChunkLoop, joinAll, List.drop_length]
    · have hlt : offset < rawTx.length := by omega
      have hp := txChunkSize_progress paths.length ro rawTx.length offset hk hr hlt
      simp only [txChunkLoop, if_neg he, if_neg (by omega : ¬ offset = 0)]
      have hslice : ((rawTx.drop offset).take
          (txChunkSize paths.length ro rawTx.length offset)).length =
          txChunkSize paths.length ro rawTx.length offset := by
        simp [List.length_take, List.length_drop]
        omega
      rw [joinAll, bufCopy_fill _ _ hslice]
      rw [ih (offset + txChunkSize paths.length ro rawTx.length offset)
        (by omega) (by omega) (by omega)]
      rw [show rawTx.drop (offset + txChunkSize paths.length ro rawTx.length offset) =
        (rawTx.drop offset).drop (txChunkSize paths.length ro rawTx.length offset) from
        by rw [List.drop_drop]]
      exact List.take_append_drop _ _

theorem msgChunkLoop_join (paths message : List Nat) (hk : paths.length ≤ 36) :
    ∀ (fuel offset : Nat), 0 < offset → offset ≤ message.length →
      message.length - offset < fuel →
      joinAll (msgChunkLoop paths message fuel offset) = message.drop offset := by
  intro fuel
  induction fuel with
  | zero => intro offset h1 h2 h3; omega
  | succ fuel ih =>
    intro offset h1 h2 h3
    by_cases he : offset = message.length
    · subst he
      simp [msgChunkLoop, joinAll, List.drop_length]
    · have hlt : offset < message.length := by omega
      have hp := msgChunkSize_progress paths.length message.length offset hk hlt
      simp only [msgChunkLoop, if_neg he, if_neg (by omega : ¬ offset = 0)]
      have hslice : ((message.drop offset).take
          (msgChunkSize paths.length message.length offset)).length =
          msgChunkSize paths.length message.length offset := by
        simp [List.length_take, List.length_drop]
        omega
      rw [joinAll, bufCopy_fill _ _ hslice]
      rw [ih (offset + msgChunkSize paths.length message.length offset)
        (by omega) (by omega) (by omega)]
      rw [show message.drop (offset + msgChunkSize paths.length message.length offset) =
        (message.drop offset).drop (msgChunkSize paths.length message.length offset) from
        by rw [List.drop_drop]]
      exact List.take_append_drop _ _

/-- Payload reconstruction for the `signTransaction` chunker. -/
theorem signTransactionFrames_concat (paths : List Nat) (ro : Nat) (rawTx : List Nat)
    (hk : paths.length ≤ 36) (hr : ro = 0 ∨ ro < rawTx.length) :
    chunkPayloadConcat (1 + 4 * paths.length) (signTransactionFrames paths ro rawTx) = rawTx := by
  unfold signTransactionFrames
  by_cases h0 : rawTx.length = 0
  · have hnil : rawTx = [] := List.length_eq_zero.mp h0
    subst hnil
    rfl
  · have hlt : (0 : Nat) < rawTx.length := by omega
    have hp := txChunkSize_progress paths.length ro rawTx.length 0 hk hr hlt
    simp only [txChunkLoop, if_neg (show ¬((0 : Nat) = rawTx.length) from by omega),
      if_pos (show (0 : Nat) = 0 from rfl), if_true, List.drop_zero, Nat.zero_add]
    rw [writePathHeader_norm paths
      (1 + paths.length * 4 + txChunkSize paths.length ro rawTx.length 0) (by omega)]
    rw [show (1 + paths.length * 4 + txChunkSize paths.length ro rawTx.length 0) -
      (1 + 4 * paths.length) = txChunkSize paths.length ro rawTx.length 0 from by omega]
    rw [bufCopy_exact_step (pathHeader paths)
      (rawTx.take (txChunkSize paths.length ro rawTx.length 0))
      (txChunkSize paths.length ro rawTx.length 0) 0 (1 + 4 * paths.length)
      (pathHeader_length paths).symm
      (by simp only [List.length_take]; omega)]
    simp only [chunkPayloadConcat, List.append_nil, List.replicate_zero]
    rw [show (1 + 4 * paths.length) = (pathHeader paths).length from
      (pathHeader_length paths).symm, List.drop_left]
    rw [txChunkLoop_join paths ro rawTx hk hr rawTx.length
      (txChunkSize paths.length ro rawTx.length 0) (by omega) (by omega) (by omega)]
    exact List.take_append_drop _ _

/-- Payload reconstruction for the `signPersonalMessage` chunker. -/
theorem signPersonalMessageFrames_concat (paths message : List Nat)
    (hk : paths.length ≤ 36) :
    chunkPayloadConcat (1 + 4 * paths.length + 4)
      (signPersonalMessageFrames paths message) = message := by
  unfold signPersonalMessageFrames
  by_cases h0 : message.length = 0
  · have hnil : message = [] := List.length_eq_zero.mp h0
    subst hnil
    rfl
  · have hlt : (0 : Nat) < message.length := by omega
    have hp := msgChunkSize_progress paths.length message.length 0 hk hlt
    simp only [msgChunkLoop, if_neg (show ¬((0 : Nat) = message.length) from by omega),
      if_pos (show (0 : Nat) = 0 from rfl), if_true, List.drop_zero, Nat.zero_add]
    rw [writePathHeader_norm paths
      (1 + paths.length * 4 + 4 + msgChunkSize paths.length message.length 0) (by omega)]
    rw [show (1 + paths.length * 4 + 4 + msgChunkSize paths.length message.length 0) -
      (1 + 4 * paths.length) = 4 + msgChunkSize paths.length message.length 0 from by omega]
    rw [bufCopy_exact_step (pathHeader paths) (be32 message.length)
      (4 + msgChunkSize paths.length message.length 0)
      (msgChunkSize paths.length message.length 0) (1 + 4 * paths.length)
      (pathHeader_length paths).symm (by rw [be32_length] <;> omega)]
    rw [bufCopy_exact_step (pathHeader paths ++ be32 message.length)
      (message.take (msgChunkSize paths.length message.length 0))
      (msgChunkSize paths.length message.length 0) 0 (1 + 4 * paths.length + 4)
      (by rw [List.length_append, pathHeader_length, be32_length])
      (by simp only [List.length_take]; omega)]
    simp only [chunkPayloadConcat, List.append_nil, List.replicate_zero]
    rw [show (1 + 4 * paths.length + 4) = (pathHeader paths ++ be32 message.length).length from
      by rw [List.length_append, pathHeader_length, be32_length], List.drop_left]
    rw [msgChunkLoop_join paths message hk message.length
      (msgChunkSize paths.length message.length 0) (by omega) (by omega) (by omega)]
    exact List.take_append_drop _ _

theorem txChunkLoop_bounds (paths : List Nat) (ro : Nat) (rawTx : List Nat)
    (hk : paths.length ≤ 36) (h0 : 0 < ro) (hL : ro < rawTx.length) :
    ∀ (fuel offset : Nat), 0 < offset → offset ≤ rawTx.length →
      rawTx.length - offset < fuel →
      ro ∉ runningTotals offset ((txChunkLoop paths ro rawTx fuel offset).map List.length) := by
  intro fuel
  induction fuel with
  | zero => intro offset h1 h2 h3; omega
  | succ fuel ih =>
    intro offset h1 h2 h3
    by_cases he : offset = rawTx.length
    · subst he
      simp [txChunkLoop, runningTotals]
    · have hlt : offset < rawTx.length := by omega
      have hp := txChunkSize_progress paths.length ro rawTx.length offset hk (Or.inr hL) hlt
      have hne := txChunkEnd_ne paths.length ro rawTx.length offset hk h0 hL hlt
      simp only [txChunkLoop, if_neg he, if_neg (by omega : ¬ offset = 0)]
      simp only [List.map_cons, runningTotals, bufCopy_length, List.length_replicate,
        List.mem_cons]
      push_neg
      constructor
      · omega
      · have := ih (offset + txChunkSize paths.length ro rawTx.length offset)
          (by omega) (by omega) (by omega)
        simpa using this

/-- No chunk boundary of `signTransaction` ever lands exactly on the
EIP-155 suffix offset. -/
theorem txChunkBoundaries_ne (paths : List Nat) (ro : Nat) (rawTx : List Nat)
    (hk : paths.length ≤ 36) (h0 : 0 < ro) (hL : ro < rawTx.length) :
    ro ∉ txChunkBoundaries paths ro rawTx := by
  unfold txChunkBoundaries signTransactionFrames
  have hlt : (0 : Nat) < rawTx.length := by omega
  have hp := txChunkSize_progress paths.length ro rawTx.length 0 hk (Or.inr hL) hlt
  have hne := txChunkEnd_ne paths.length ro rawTx.length 0 hk h0 hL hlt
  simp only [txChunkLoop, if_neg (show ¬((0 : Nat) = rawTx.length) from by omega),
    if_pos (show (0 : Nat) = 0 from rfl), if_true, Nat.zero_add]
  simp only [framePayloadSizes, runningTotals, List.mem_cons, bufCopy_length,
    writePathHeader_length, List.length_replicate]
  push_neg
  constructor
  · omega
  · have := txChunkLoop_bounds paths ro rawTx hk h0 hL rawTx.length
      (txChunkSize paths.length ro rawTx.length 0) (by omega) (by omega) (by omega)
    rw [show 1 + paths.length * 4 + txChunkSize paths.length ro rawTx.length 0 -
      (1 + 4 * paths.length) = txChunkSize paths.length ro rawTx.length 0 from by omega]
    simpa using this

/-! ## Auxiliary lemmas for the claim theorems -/

theorem hexEncode_length (l : List Nat) : (hexEncode l).length = 2 * l.length := by
  induction l with
  | nil => rfl
  | cons b rest ih => simp [hexEncode, ih]; omega

/-- The `starkSignOrder` frame length is fixed by the path alone, whatever
the magnitude arguments are. -/
theorem starkSignOrderFrame_length (paths : List Nat)
    (sTok : Option (List Nat)) (sq : Nat) (dTok : Option (List Nat)) (dq : Nat)
    (sv dv aS aB nc ts : Nat) :
    (starkSignOrderFrame paths sTok sq dTok dq sv dv aS aB nc ts).length =
      1 + 4 * paths.length + 136 := by
  simp [starkSignOrderFrame, bufCopy_length, bufCopyOpt_length, writePathHeader_length]
  omega

/-! ## Claim theorems -/

/-- C1: for every payload, concatenating the payload-bearing regions of all
frames produced by the chunking loops — frame 0 minus its path header (and,
for `signPersonalMessage`, minus the 4-byte length field), frames 1.. in
full — reconstructs the original payload byte for byte. Stated for paths
that fit the first frame (at most 36 components, as for any BIP-44 path)
and for the EIP-155 offset values the source can compute: `0` when the
decoded transaction has at most 6 elements, otherwise an offset strictly
inside the payload (the trailing v/r/s group occupies at least the last
three bytes). -/
theorem c1_chunk_concat_reconstructs (paths rawTx message : List Nat) (rlpOffset : Nat)
    (hk : paths.length ≤ 36)
    (hr : rlpOffset = 0 ∨ rlpOffset < rawTx.length) :
    chunkPayloadConcat (1 + 4 * paths.length)
      (signTransactionFrames paths rlpOffset rawTx) = rawTx ∧
    chunkPayloadConcat (1 + 4 * paths.length + 4)
      (signPersonalMessageFrames paths message) = message :=
  ⟨signTransactionFrames_concat paths rlpOffset rawTx hk hr,
   signPersonalMessageFrames_concat paths message hk⟩

theorem c1_witness :
    chunkPayloadConcat (1 + 4 * [2147483692, 2147536400, 2147483648, 0, 0].length)
      (signTransactionFrames [2147483692, 2147536400, 2147483648, 0, 0] 129
        (List.replicate 200 7)) = List.replicate 200 7 ∧
    chunkPayloadConcat (1 + 4 * [2147483692, 2147536400, 2147483648, 0, 0].length + 4)
      (signPersonalMessageFrames [2147483692, 2147536400, 2147483648, 0, 0]
        (List.replicate 160 9)) = List.replicate 160 9 :=
  c1_chunk_concat_reconstructs [2147483692, 2147536400, 2147483648, 0, 0]
    (List.replicate 200 7) (List.replicate 160 9) 129 (by decide) (by decide)

/-- C2: whenever the raw transaction has an EIP-155 suffix starting at a
nonzero offset `rlpOffset` (which for a genuine suffix lies strictly inside
the payload), no chunk boundary produced by the `signTransaction` loop ever
equals that offset — the shrink-by-one rule applies at every iteration, not
just the first. -/
theorem c2_no_boundary_on_suffix (paths rawTx : List Nat) (rlpOffset : Nat)
    (hk : paths.length ≤ 36) (h0 : 0 < rlpOffset) (hL : rlpOffset < rawTx.length) :
    rlpOffset ∉ txChunkBoundaries paths rlpOffset rawTx :=
  txChunkBoundaries_ne paths rlpOffset rawTx hk h0 hL

theorem c2_witness :
    (129 : Nat) ∉ txChunkBoundaries [2147483692, 2147536400, 2147483648, 0, 0] 129
      (List.replicate 200 7) :=
  c2_no_boundary_on_suffix [2147483692, 2147536400, 2147483648, 0, 0]
    (List.replicate 200 7) 129 (by decide) (by decide) (by decide)

/-- C3 counterexample: for a 0-length message, the `signPersonalMessage`
chunking loop emits zero frames, not the single header-plus-length frame the
claim requires. -/
theorem c3_counterexample :
    ¬ (signPersonalMessageFrames [2147483692, 2147536400, 2147483648, 0, 0] []).length = 1 := by
  decide

/-- C3 as amended: for a 0-length message the loop body never runs, `toSend`
stays empty, and the dispatcher issues no request at all — the device
receives nothing rather than a single header-only frame. -/
theorem c3_amended_zero_frames (paths : List Nat) :
    signPersonalMessageFrames paths [] = [] ∧
    dispatchAPDUs 0x08 (signPersonalMessageFrames paths []) 0 = [] :=
  ⟨rfl, rfl⟩

/-- C4 counterexample: a 1-byte response — far below the 65-byte v/r/s
layout — still resolves `signTransaction` with a parsed result (truncated
hex fields), not with any error. -/
theorem c4_counterexample :
    signTransactionResultOf (.ok [27]) = .ok ⟨[1, 11], [], []⟩ := rfl

/-- C4 as amended: no response-length validation exists. The
`signTransaction` parser consumes whatever bytes are present (short
responses yield proportionally short hex fields, never an error), and the
`getAddress` parser turns a response too short for even its two length
bytes into an empty public key and the bare `0x` address. -/
theorem c4_amended_short_response_parsed (resp : List Nat) :
    (resp.length < 65 →
      (signTransactionParse resp).v.length + (signTransactionParse resp).r.length +
        (signTransactionParse resp).s.length = 2 * resp.length) ∧
    (resp.length ≤ 1 →
      getAddressParse false resp =
        { publicKey := [], address := [48, 120], chainCode := none }) := by
  constructor
  · intro h
    simp only [signTransactionParse, hexEncode_length, List.length_take, List.length_drop]
    omega
  · intro h
    rcases resp with _ | ⟨x, rest⟩
    · rfl
    · rcases rest with _ | ⟨y, rest⟩
      · have h1 : (1 : Nat) + x = x + 1 := by omega
        simp [getAddressParse, hexEncode, h1, List.take_nil,
          List.drop_eq_nil_of_le, GetAddressResult.mk.injEq]
      · simp at h

theorem c4_witness :
    ([27] : List Nat).length < 65 ∧
    (signTransactionParse [27]).v.length + (signTransactionParse [27]).r.length +
      (signTransactionParse [27]).s.length = 2 * ([27] : List Nat).length ∧
    ([5] : List Nat).length ≤ 1 ∧
    getAddressParse false [5] = { publicKey := [], address := [48, 120], chainCode := none } :=
  ⟨by decide, (c4_amended_short_response_parsed [27]).1 (by decide),
   by decide, (c4_amended_short_response_parsed [5]).2 (by decide)⟩

/-- C5 counterexample: `amountSell = 2 ^ 64` needs 17 hex digits, exceeding
the 8-byte field width, so the specification demands a caller-input error
before any frame exists. Instead `starkSignOrder` builds its full 141-byte
frame (for a 1-component path) and proceeds to the transport; the
amount-sell field region receives the bytes of the truncated odd-length hex
string — the value `2 ^ 60`, not `2 ^ 64`. -/
theorem c5_counterexample :
    starkSignOrderWidthCheck 2 2 (2 ^ 64) 1 = false ∧
    (starkSignOrderFrame [2147483692] none 2 none 2 1 1 (2 ^ 64) 1 1 1).length = 141 ∧
    ((starkSignOrderFrame [2147483692] none 2 none 2 1 1 (2 ^ 64) 1 1 1).drop 117).take 8 =
      [16, 0, 0, 0, 0, 0, 0, 0] := by
  refine ⟨by decide, by decide, by decide⟩

/-- C5 as amended: within the field width, each magnitude field holds
exactly the hexadecimal representation left-padded with zeros to the full
width (equivalently, the big-endian fixed-width encoding of the value) at
its documented offset; out-of-width magnitudes are not rejected — the frame
is still allocated at its fixed size and handed to the transport. -/
theorem c5_amended_magnitude_fields (paths : List Nat)
    (sourceTokenAddressHex : Option (List Nat)) (sourceQuantization : Nat)
    (destinationTokenAddressHex : Option (List Nat)) (destinationQuantization : Nat)
    (sourceVault destinationVault amountSell amountBuy nonce timestamp : Nat)
    (hsTok : ∀ a, sourceTokenAddressHex = some a → a.length ≤ 20)
    (hdTok : ∀ a, destinationTokenAddressHex = some a → a.length ≤ 20)
    (hsq : sourceQuantization < 2 ^ 256) (hdq : destinationQuantization < 2 ^ 256)
    (hsell : amountSell < 2 ^ 64) (hbuy : amountBuy < 2 ^ 64) :
    starkSignOrderFrame paths sourceTokenAddressHex sourceQuantization
      destinationTokenAddressHex destinationQuantization sourceVault destinationVault
      amountSell amountBuy nonce timestamp =
      pathHeader paths ++ optField 20 sourceTokenAddressHex ++
        magField 32 sourceQuantization ++ optField 20 destinationTokenAddressHex ++
        magField 32 destinationQuantization ++ be32 sourceVault ++ be32 destinationVault ++
        magField 8 amountSell ++ magField 8 amountBuy ++ be32 nonce ++ be32 timestamp ∧
    magField 32 sourceQuantization = beBytes 32 sourceQuantization ∧
    magField 8 amountSell = beBytes 8 amountSell ∧
    (∀ q1 q2 a1 a2 : Nat,
      (starkSignOrderFrame paths sourceTokenAddressHex q1 destinationTokenAddressHex q2
        sourceVault destinationVault a1 a2 nonce timestamp).length =
        1 + 4 * paths.length + 136) :=
  ⟨starkSignOrderFrame_norm paths sourceTokenAddressHex sourceQuantization
      destinationTokenAddressHex destinationQuantization sourceVault destinationVault
      amountSell amountBuy nonce timestamp hsTok hdTok hsq hdq hsell hbuy,
   magField_in_width 32 sourceQuantization (by simpa using hsq) (by norm_num),
   magField_in_width 8 amountSell (by simpa using hsell) (by norm_num),
   fun q1 q2 a1 a2 => starkSignOrderFrame_length paths sourceTokenAddressHex q1
     destinationTokenAddressHex q2 sourceVault destinationVault a1 a2 nonce timestamp⟩

theorem c5_witness :
    (1 : Nat) < 2 ^ 256 ∧ (5 : Nat) < 2 ^ 64 ∧
    starkSignOrderFrame [2147483692] none 1 none 2 3 4 5 6 7 8 =
      pathHeader [2147483692] ++ optField 20 none ++ magField 32 1 ++ optField 20 none ++
        magField 32 2 ++ be32 3 ++ be32 4 ++ magField 8 5 ++ magField 8 6 ++
        be32 7 ++ be32 8 :=
  ⟨by norm_num, by norm_num,
   (c5_amended_magnitude_fields [2147483692] none 1 none 2 3 4 5 6 7 8
     (fun a h => nomatch h) (fun a h => nomatch h)
     (by norm_num) (by norm_num) (by norm_num) (by norm_num)).1⟩

/-- C6: a transport rejection whose `statusCode` is `0x6a80` is remapped,
during `signTransaction` only, to the descriptive enable-contract-data
error; every other error during `signTransaction` propagates unchanged, and
no other operation performs this remap (the four soft-fallback operations
rethrow a `0x6a80` rejection unchanged as well). -/
theorem c6_contract_data_remap :
    signTransactionResultOf (.error (.status 0x6a80)) = .error .enableContractData ∧
    (∀ e : HwError, e ≠ .status 0x6a80 →
      signTransactionResultOf (.error e) = .error e) ∧
    (∀ e : HwError, getAddressResultOf false (.error e) = .error e) ∧
    (∀ e : HwError, signPersonalMessageResultOf (.error e) = .error e) ∧
    (∀ e : HwError, signEIP712HashedMessageResultOf (.error e) = .error e) ∧
    (∀ e : HwError, getAppConfigurationResultOf (.error e) = .error e) ∧
    (∀ e : HwError, starkGetPublicKeyResultOf (.error e) = .error e) ∧
    (∀ e : HwError, starkSignOrderResultOf (.error e) = .error e) ∧
    (∀ e : HwError, starkSignOrderV2ResultOf (.error e) = .error e) ∧
    (∀ e : HwError, starkSignTransferResultOf (.error e) = .error e) ∧
    (∀ e : HwError, starkSignTransferV2ResultOf (.error e) = .error e) ∧
    (∀ e : HwError, starkUnsafeSignResultOf (.error e) = .error e) ∧
    (∀ e : HwError, eth2GetPublicKeyResultOf (.error e) = .error e) ∧
    provideERC20TokenInformationResultOf (.error (.status 0x6a80)) =
      .error (.status 0x6a80) ∧
    starkProvideQuantumResultOf (.error (.status 0x6a80)) = .error (.status 0x6a80) ∧
    starkProvideQuantumV2ResultOf (.error (.status 0x6a80)) = .error (.status 0x6a80) ∧
    eth2SetWithdrawalIndexResultOf (.error (.status 0x6a80)) = .error (.status 0x6a80) := by
  refine ⟨rfl, ?_, fun e => rfl, fun e => rfl, fun e => rfl, fun e => rfl, fun e => rfl,
    fun e => rfl, fun e => rfl, fun e => rfl, fun e => rfl, fun e => rfl, fun e => rfl,
    rfl, rfl, rfl, rfl⟩
  intro e he
  cases e with
  | status c =>
    have hc : c ≠ 0x6a80 := fun h => he (by rw [h])
    simp [signTransactionResultOf, remapTransactionRelatedErrors, HwError.statusCode, hc]
  | noStatus => rfl
  | enableContractData => rfl

theorem c6_witness :
    HwError.noStatus ≠ HwError.status 0x6a80 ∧
    signTransactionResultOf (.error .noStatus) = .error .noStatus ∧
    HwError.status 0x6d00 ≠ HwError.status 0x6a80 ∧
    signTransactionResultOf (.error (.status 0x6d00)) = .error (.status 0x6d00) :=
  ⟨by decide, c6_contract_data_remap.2.1 .noStatus (by decide),
   by decide, c6_contract_data_remap.2.1 (.status 0x6d00) (by decide)⟩

/-- C7: exactly `provideERC20TokenInformation`, `starkProvideQuantum`,
`starkProvideQuantum_v2` and `eth2SetWithdrawalIndex` convert a transport
rejection with `statusCode` `0x6d00` into the boolean `false`, resolve with
`true` on success, and rethrow every other rejection unchanged; every other
operation propagates a `0x6d00` rejection as an error. -/
theorem c7_soft_unsupported_fallback :
    provideERC20TokenInformationResultOf (.error (.status 0x6d00)) = .ok false ∧
    (∀ r : List Nat, provideERC20TokenInformationResultOf (.ok r) = .ok true) ∧
    (∀ e : HwError, e.statusCode ≠ some 0x6d00 →
      provideERC20TokenInformationResultOf (.error e) = .error e) ∧
    starkProvideQuantumResultOf (.error (.status 0x6d00)) = .ok false ∧
    (∀ r : List Nat, starkProvideQuantumResultOf (.ok r) = .ok true) ∧
    (∀ e : HwError, e.statusCode ≠ some 0x6d00 →
      starkProvideQuantumResultOf (.error e) = .error e) ∧
    starkProvideQuantumV2ResultOf (.error (.status 0x6d00)) = .ok false ∧
    (∀ r : List Nat, starkProvideQuantumV2ResultOf (.ok r) = .ok true) ∧
    (∀ e : HwError, e.statusCode ≠ some 0x6d00 →
      starkProvideQuantumV2ResultOf (.error e) = .error e) ∧
    eth2SetWithdrawalIndexResultOf (.error (.status 0x6d00)) = .ok false ∧
    (∀ r : List Nat, eth2SetWithdrawalIndexResultOf (.ok r) = .ok true) ∧
    (∀ e : HwError, e.statusCode ≠ some 0x6d00 →
      eth2SetWithdrawalIndexResultOf (.error e) = .error e) ∧
    signTransactionResultOf (.error (.status 0x6d00)) = .error (.status 0x6d00) ∧
    getAddressResultOf false (.error (.status 0x6d00)) = .error (.status 0x6d00) ∧
    signPersonalMessageResultOf (.error (.status 0x6d00)) = .error (.status 0x6d00) ∧
    signEIP712HashedMessageResultOf (.error (.status 0x6d00)) = .error (.status 0x6d00) ∧
    getAppConfigurationResultOf (.error (.status 0x6d00)) = .error (.status 0x6d00) ∧
    starkGetPublicKeyResultOf (.error (.status 0x6d00)) = .error (.status 0x6d00) ∧
    starkSignOrderResultOf (.error (.status 0x6d00)) = .error (.status 0x6d00) ∧
    starkSignOrderV2ResultOf (.error (.status 0x6d00)) = .error (.status 0x6d00) ∧
    starkSignTransferResultOf (.error (.status 0x6d00)) = .error (.status 0x6d00) ∧
    starkSignTransferV2ResultOf (.error (.status 0x6d00)) = .error (.status 0x6d00) ∧
    starkUnsafeSignResultOf (.error (.status 0x6d00)) = .error (.status 0x6d00) ∧
    eth2GetPublicKeyResultOf (.error (.status 0x6d00)) = .error (.status 0x6d00) := by
  refine ⟨rfl, fun r => rfl, ?_, rfl, fun r => rfl, ?_, rfl, fun r => rfl, ?_,
    rfl, fun r => rfl, ?_, rfl, rfl, rfl, rfl, rfl, rfl, rfl, rfl, rfl, rfl, rfl, rfl⟩ <;>
    · intro e he
      simp only [provideERC20TokenInformationResultOf, starkProvideQuantumResultOf,
        starkProvideQuantumV2ResultOf, eth2SetWithdrawalIndexResultOf, if_neg he]

theorem c7_witness :
    (HwError.status 0x6a80).statusCode ≠ some 0x6d00 ∧
    provideERC20TokenInformationResultOf (.error (.status 0x6a80)) =
      .error (.status 0x6a80) ∧
    HwError.noStatus.statusCode ≠ some 0x6d00 ∧
    eth2SetWithdrawalIndexResultOf (.error .noStatus) = .error .noStatus :=
  ⟨by decide, c7_soft_unsupported_fallback.2.2.1 (.status 0x6a80) (by decide),
   by decide, c7_soft_unsupported_fallback.2.2.2.2.2.2.2.2.2.2.2.1 .noStatus (by decide)⟩

/-- C8: in `starkSignTransfer_v2`, supplying the conditional address/fact
pair makes the frame exactly 52 bytes longer, the extra region being the
32-byte fact followed by the 20-byte conditional address appended after the
timestamp, and sets the sub-instruction byte to `0x05`; with the pair absent
the frame has the base length and the sub-instruction byte is `0x04`. The
sub-instruction value and the frame length always agree. -/
theorem c8_conditional_transfer_shape (paths : List Nat) (tok : Option (List Nat))
    (q : StarkQuantizationType) (quant blob : Option Nat) (target : List Nat)
    (sv dv amt nc ts : Nat) (condAddr : Option (List Nat)) (condFact : Option Nat)
    (htok : ∀ x, tok = some x → x.length ≤ 20)
    (hquant : ∀ v, quant = some v → v < 2 ^ 256)
    (hblob : ∀ v, blob = some v → v < 2 ^ 256)
    (htarget : target.length ≤ 32) (hamt : amt < 2 ^ 64) :
    (∀ a f, condAddr = some a → condFact = some f → a.length = 20 → f < 2 ^ 256 →
      (starkSignTransferV2Frame paths tok q quant blob target sv dv amt nc ts
        condAddr condFact).length = 1 + 4 * paths.length + 141 + 52 ∧
      (starkSignTransferV2Frame paths tok q quant blob target sv dv amt nc ts
        condAddr condFact).drop (1 + 4 * paths.length + 141) = magField 32 f ++ a ∧
      starkSignTransferV2Param1 condAddr = 0x05) ∧
    (condAddr = none →
      (starkSignTransferV2Frame paths tok q quant blob target sv dv amt nc ts
        condAddr condFact).length = 1 + 4 * paths.length + 141 ∧
      starkSignTransferV2Param1 condAddr = 0x04) ∧
    (starkSignTransferV2Param1 condAddr = 0x05 ↔
      (starkSignTransferV2Frame paths tok q quant blob target sv dv amt nc ts
        condAddr condFact).length = 1 + 4 * paths.length + 141 + 52) := by
  refine ⟨?_, ?_, ?_⟩
  · intro a f ha hf haddr hfact
    subst ha
    subst hf
    refine ⟨?_, ?_, rfl⟩
    · rw [starkSignTransferV2Frame_length]
      simp <;> omega
    · rw [starkSignTransferV2Frame_cond_norm paths tok q quant blob target sv dv amt nc ts a f
        htok hquant hblob htarget hamt hfact haddr]
      have hquantLen : ∀ v, quant = some v → (magField 32 v).length = 32 := fun v hv =>
        magField_in_width_length 32 v (by simpa using hquant v hv) (by norm_num)
      have hblobLen : ∀ v, blob = some v → (magField 32 v).length = 32 := fun v hv =>
        magField_in_width_length 32 v (by simpa using hblob v hv) (by norm_num)
      have hXlen : (pathHeader paths ++ [starkQuantizationTypeMap q] ++ optField 20 tok ++
          optMagField 32 quant ++ optMagField 32 blob ++ optField 32 (some target) ++
          be32 sv ++ be32 dv ++ magField 8 amt ++ be32 nc ++ be32 ts).length =
          1 + 4 * paths.length + 141 := by
        simp only [List.length_append, pathHeader_length, List.length_singleton,
          optField_length 20 tok htok, optMagField_length 32 quant hquantLen,
          optMagField_length 32 blob hblobLen,
          optField_length 32 (some target)
            (fun x hx => by injection hx with h; rw [← h]; exact htarget),
          be32_length,
          magField_in_width_length 8 amt (by simpa using hamt) (by norm_num)] <;> omega
      rw [← hXlen, List.drop_left]
  · intro h
    subst h
    refine ⟨?_, rfl⟩
    rw [starkSignTransferV2Frame_length]
    simp <;> omega
  · cases condAddr with
    | none =>
      simp [starkSignTransferV2Param1, starkSignTransferV2Frame_length] <;> omega
    | some a =>
      simp [starkSignTransferV2Param1, starkSignTransferV2Frame_length] <;> omega

theorem c8_witness :
    (starkSignTransferV2Frame [2147483692] none .eth (some 1) none (List.replicate 32 9)
      1 2 5 6 7 (some (List.replicate 20 8)) (some 3)).length =
      1 + 4 * [2147483692].length + 141 + 52 ∧
    (starkSignTransferV2Frame [2147483692] none .eth (some 1) none (List.replicate 32 9)
      1 2 5 6 7 (some (List.replicate 20 8)) (some 3)).drop
      (1 + 4 * [2147483692].length + 141) = magField 32 3 ++ List.replicate 20 8 ∧
    starkSignTransferV2Param1 (some (List.replicate 20 8)) = 0x05 :=
  (c8_conditional_transfer_shape [2147483692] none .eth (some 1) none (List.replicate 32 9)
    1 2 5 6 7 (some (List.replicate 20 8)) (some 3)
    (fun x hx => nomatch hx)
    (fun v hv => by injection hv with h; rw [← h]; norm_num)
    (fun v hv => nomatch hv)
    (by simp) (by norm_num)).1
    (List.replicate 20 8) 3 rfl rfl (by simp) (by norm_num)

/-- C9: `LEDGER.getAccount` never rejects — any failure of the underlying
`getAddress` call is swallowed and the promise resolves with the empty
string, while a successful call resolves with the address from the parsed
device response. -/
theorem c9_getAccount_never_rejects :
    (∀ e : HwError, LEDGER_getAccount (.error e) = []) ∧
    (∀ resp : List Nat, LEDGER_getAccount (.ok resp) = (getAddressParse false resp).address) :=
  ⟨fun e => rfl, fun resp => rfl⟩

/-- C10: `starkGetPublicKey` and `eth2GetPublicKey` both strip the trailing
two status-word bytes: for a response of length at least 2, the returned key
is exactly the first `n - 2` bytes (hex encoded for `eth2GetPublicKey`),
and the dropped suffix has length 2. -/
theorem c10_status_word_stripped (resp : List Nat) (h : 2 ≤ resp.length) :
    starkGetPublicKeyParse resp ++ resp.drop (resp.length - 2) = resp ∧
    (starkGetPublicKeyParse resp).length = resp.length - 2 ∧
    (resp.drop (resp.length - 2)).length = 2 ∧
    eth2GetPublicKeyParse resp = hexEncode (starkGetPublicKeyParse resp) ∧
    starkGetPublicKeyResultOf (.ok resp) = .ok (starkGetPublicKeyParse resp) ∧
    eth2GetPublicKeyResultOf (.ok resp) = .ok (eth2GetPublicKeyParse resp) := by
  refine ⟨List.take_append_drop _ _, ?_, ?_, rfl, rfl, rfl⟩
  · simp only [starkGetPublicKeyParse, List.length_take]
    omega
  · simp only [List.length_drop]
    omega

theorem c10_witness :
    (2 : Nat) ≤ ([1, 2, 3, 9, 9] : List Nat).length ∧
    starkGetPublicKeyParse [1, 2, 3, 9, 9] ++
      ([1, 2, 3, 9, 9] : List Nat).drop (([1, 2, 3, 9, 9] : List Nat).length - 2) =
        [1, 2, 3, 9, 9] ∧
    eth2GetPublicKeyParse [1, 2, 3, 9, 9] = hexEncode (starkGetPublicKeyParse [1, 2, 3, 9, 9]) :=
  ⟨by decide, (c10_status_word_stripped [1, 2, 3, 9, 9] (by decide)).1,
   (c10_status_word_stripped [1, 2, 3, 9, 9] (by decide)).2.2.2.1⟩
